import Mathlib

/-!
Verification development for the AugmentOS music-player server.

The registry/lifecycle logic is embedded from `server.ts` (`MusicPlayerServer`):
the `activeUserSessions` map, `onSession`, `onStop` / `handleSessionCleanupComplete`,
`reapplySessionSettingsAndHandlers`, `sendUserSettings`, `setupUserSettings`, and the
shutdown cleanup handler registered in the constructor.  The Shazam track lookup is
embedded from `services/shazam-service.ts`.  The session-handler module (the cleanup
closures returned by `setupSessionHandlers` and the per-session state machine with its
timers) is not among the sources; those parts are modelled from the spec and are marked
as such on their definitions.

Effects (cleanup invocations, log lines, registry mutations, handler attachment) are
made observable as an explicit event trace; JavaScript exceptions thrown by cleanup
callbacks are modelled by an environment `EnvT` saying which cleanup handle ids throw
when invoked, and `try`/`catch` blocks of the source become trace-level error logs
while the one call site without a `catch` propagates the abort.
-/

namespace MusicPlayer

/-- `'spotify' | 'android' | 'ios'` from `types/index.ts` (`UserSettings.musicPlayer`). -/
inductive MusicPlayerKind where
  | spotify
  | android
  | ios
deriving DecidableEq, Repr

/-- `UserSettings` from `types/index.ts`. -/
structure UserSettings where
  musicPlayer : MusicPlayerKind
  isVoiceCommands : Bool
  isHeadsUpDisplay : Bool
deriving DecidableEq, Repr

/-- The JavaScript values a setting entry may carry (string, boolean or null/undefined);
enough to model `=== 'android'`-style comparisons and `!!setting.value` coercion. -/
inductive JsVal where
  | vstr (s : String)
  | vbool (b : Bool)
  | vnull
deriving DecidableEq, Repr

/-- JavaScript truthiness, as used by `!!setting.value`. -/
def truthy : JsVal → Bool
  | .vstr s => s != ""
  | .vbool b => b
  | .vnull => false

/-- One element of `session.settings.getAll()`. -/
structure SettingEntry where
  key : String
  value : JsVal
deriving DecidableEq, Repr

/-- `SettingKey.MUSIC_PLAYER` from `types/index.ts`. -/
def musicPlayerKey : String := "music_player"

/-- `SettingKey.VOICE_COMMANDS` from `types/index.ts`. -/
def voiceCommandsKey : String := "voice_commands"

/-- `SettingKey.HEADS_UP_DISPLAY` from `types/index.ts`. -/
def headsUpDisplayKey : String := "heads_up_display"

abbrev UserId := String
abbrev SessionId := String

/-- `ActiveSessionInfo` from `types/index.ts`.  The opaque `TpaSession` transport handle
is represented by a numeric identity; `sessionHandlerCleanup : (() => void) | null`
becomes an optional cleanup-handle id (the closure's behaviour is given by an `EnvT`). -/
structure ActiveSessionInfo where
  session : Nat
  sessionId : SessionId
  sessionHandlerCleanup : Option Nat
deriving DecidableEq, Repr

/-- The `activeUserSessions : Map<string, ActiveSessionInfo>`, as an association list
(entry order is irrelevant to every property proved below). -/
abbrev SessionMap := List (UserId × ActiveSessionInfo)

/-- `Map.get`. -/
def mapGet (m : SessionMap) (u : UserId) : Option ActiveSessionInfo :=
  (m.find? (fun p => p.1 == u)).map (fun p => p.2)

/-- `Map.delete` (removes every entry for the key, so it needs no well-formedness
invariant on the list). -/
def mapRemove (m : SessionMap) (u : UserId) : SessionMap :=
  m.filter (fun p => !(p.1 == u))

/-- `Map.set`: at most one entry per key afterwards. -/
def mapSet (m : SessionMap) (u : UserId) (v : ActiveSessionInfo) : SessionMap :=
  mapRemove m u ++ [(u, v)]

theorem mem_mapRemove {m : SessionMap} {u : UserId} {p : UserId × ActiveSessionInfo}
    (hp : p ∈ mapRemove m u) : ¬p.1 = u := by
  have h := (List.mem_filter.mp hp).2
  simpa using h

theorem find?_mapRemove_self (m : SessionMap) (u : UserId) :
    (mapRemove m u).find? (fun p => p.1 == u) = none := by
  rw [List.find?_eq_none]
  intro x hx
  simpa using mem_mapRemove hx

theorem mapGet_mapRemove_self (m : SessionMap) (u : UserId) :
    mapGet (mapRemove m u) u = none := by
  simp [mapGet, find?_mapRemove_self]

theorem mapGet_mapSet_self (m : SessionMap) (u : UserId) (v : ActiveSessionInfo) :
    mapGet (mapSet m u v) u = some v := by
  simp [mapGet, mapSet, List.find?_append, find?_mapRemove_self, List.find?]

theorem filter_mapRemove (m : SessionMap) (u : UserId) :
    (mapRemove m u).filter (fun p => p.1 == u) = [] := by
  rw [List.filter_eq_nil_iff]
  intro a ha
  simpa using mem_mapRemove ha

theorem filter_mapSet (m : SessionMap) (u : UserId) (v : ActiveSessionInfo) :
    (mapSet m u v).filter (fun p => p.1 == u) = [(u, v)] := by
  simp [mapSet, List.filter_append, filter_mapRemove m u, List.filter]

/-- Which cleanup-handle ids throw when invoked.  The closures come from
`setupSessionHandlers`; the server code guards several call sites with `try`/`catch`,
so a throwing handle is a behaviour it explicitly anticipates. -/
abbrev EnvT := Nat → Bool

/-- Observable effects of the server operations, in execution order. -/
inductive Event where
  | invokeCleanup (hid : Nat)
  | logCleanupError (hid : Nat)
  | removeRecord (u : UserId)
  | installRecord (u : UserId) (sid : SessionId)
  | subscribeSetting (key : String)
  | fetchSettings (u : UserId)
  | attachHandlers (u : UserId) (s : UserSettings)
  | storeCleanup (u : UserId) (hid : Nat)
  | clearRegistry
deriving DecidableEq, Repr

/-- The mutable module state of `server.ts`: the `activeUserSessions` map of the
`MusicPlayerServer` instance, and the module-level `defaultSettings` object (a mutable
object: `sendUserSettings` aliases it, so its mutations persist across calls). -/
structure ServerState where
  activeUserSessions : SessionMap
  defaultSettings : UserSettings
deriving DecidableEq, Repr

/-- One iteration of the `settingsArray.forEach` switch in
`MusicPlayerServer.sendUserSettings`, mutating the processed-settings object. -/
def applySetting (s : UserSettings) (e : SettingEntry) : UserSettings :=
  if e.key == musicPlayerKey then
    if e.value == JsVal.vstr "android" then { s with musicPlayer := .android }
    else if e.value == JsVal.vstr "ios" then { s with musicPlayer := .ios }
    else if e.value == JsVal.vstr "spotify" then { s with musicPlayer := .spotify }
    else { s with musicPlayer := .spotify }
  else if e.key == headsUpDisplayKey then { s with isHeadsUpDisplay := truthy e.value }
  else if e.key == voiceCommandsKey then { s with isVoiceCommands := truthy e.value }
  else s

/-- `MusicPlayerServer.sendUserSettings`.  `fetched` is the outcome of
`session.settings.getAll()` (`none` models the call throwing, which lands in the
`catch` branch returning `defaultSettings`).  The source writes
`const processedSettings: UserSettings = defaultSettings;` — an alias, not a copy —
so every assignment to `processedSettings` also mutates the module-level
`defaultSettings`; the returned state carries that mutation. -/
def sendUserSettings (st : ServerState) (fetched : Option (List SettingEntry)) :
    UserSettings × ServerState :=
  match fetched with
  | none => (st.defaultSettings, st)
  | some arr =>
    let processed := arr.foldl applySetting st.defaultSettings
    (processed, { st with defaultSettings := processed })

/-- The trace of `try { cleanup() } catch (error) { logger.error(...) }` applied to the
optional cleanup handle of a record (used by the `onSession` supersede path, by
`reapplySessionSettingsAndHandlers` and by the shutdown cleanup handler). -/
def cleanupEventsFor (env : EnvT) (cleanup : Option Nat) : List Event :=
  match cleanup with
  | some h => if env h then [.invokeCleanup h, .logCleanupError h] else [.invokeCleanup h]
  | none => []

/-- `MusicPlayerServer.reapplySessionSettingsAndHandlers`.  `fetched` is the
settings-array input of the inner `sendUserSettings` call and `freshHid` is the id of
the cleanup handle returned by the `setupSessionHandlers` call. -/
def reapplySessionSettingsAndHandlers (env : EnvT) (st : ServerState) (u : UserId)
    (fetched : Option (List SettingEntry)) (freshHid : Nat) : ServerState × List Event :=
  match mapGet st.activeUserSessions u with
  | none => (st, [])
  | some info =>
    let ev0 := cleanupEventsFor env info.sessionHandlerCleanup
    let sent := sendUserSettings st fetched
    let updatedInfo := { info with sessionHandlerCleanup := some freshHid }
    let st2 := { sent.2 with activeUserSessions := mapSet sent.2.activeUserSessions u updatedInfo }
    (st2, ev0 ++ [.fetchSettings u, .attachHandlers u sent.1, .storeCleanup u freshHid])

/-- The type of the `onValueChange` callbacks registered by
`MusicPlayerServer.setupUserSettings` (each one closes over `userId` and calls back
into the server). -/
abbrev SettingCallback :=
  EnvT → ServerState → Option (List SettingEntry) → Nat → ServerState × List Event

/-- `MusicPlayerServer.setupUserSettings`: the three `session.settings.onValueChange`
registrations, in source order, each with the callback it installs. -/
def setupUserSettings (u : UserId) : List (String × SettingCallback) :=
  [ (musicPlayerKey, fun env st fetched n => reapplySessionSettingsAndHandlers env st u fetched n),
    (voiceCommandsKey, fun env st fetched n => reapplySessionSettingsAndHandlers env st u fetched n),
    (headsUpDisplayKey, fun env st fetched n => reapplySessionSettingsAndHandlers env st u fetched n) ]

/-- Delivery of a value-change event for setting `key` to user `u`'s registered
callbacks: the SDK runs the callback registered for that key, if any. -/
def fireValueChange (u : UserId) (key : String) (env : EnvT) (st : ServerState)
    (fetched : Option (List SettingEntry)) (freshHid : Nat) : ServerState × List Event :=
  match (setupUserSettings u).find? (fun p => p.1 == key) with
  | some reg => reg.2 env st fetched freshHid
  | none => (st, [])

/-- `MusicPlayerServer.onSession`.  `sess` is the identity of the new `TpaSession`,
`sid`/`u` the session and user identifiers; `fetched` and `freshHid` feed the inner
`reapplySessionSettingsAndHandlers` call.  The trailing Spotify-authentication
display writes no server state and is omitted from the trace. -/
def onSession (env : EnvT) (st : ServerState) (sess : Nat) (sid : SessionId) (u : UserId)
    (fetched : Option (List SettingEntry)) (freshHid : Nat) : ServerState × List Event :=
  let (st1, ev1) : ServerState × List Event :=
    match mapGet st.activeUserSessions u with
    | some oldInfo =>
      ({ st with activeUserSessions := mapRemove st.activeUserSessions u },
       cleanupEventsFor env oldInfo.sessionHandlerCleanup ++ [.removeRecord u])
    | none => (st, [])
  let newInfo : ActiveSessionInfo := ⟨sess, sid, none⟩
  let st2 := { st1 with activeUserSessions := mapSet st1.activeUserSessions u newInfo }
  let ev2 := [Event.installRecord u sid]
  let ev3 := (setupUserSettings u).map (fun p => Event.subscribeSetting p.1)
  let reapplied := reapplySessionSettingsAndHandlers env st2 u fetched freshHid
  (reapplied.1, ev1 ++ ev2 ++ ev3 ++ reapplied.2)

/-- `MusicPlayerServer.handleSessionCleanupComplete` (reached from `onStop`).  The
returned flag records whether an exception escaped: the source invokes
`trackedInfo.sessionHandlerCleanup()` with no `try`/`catch`, so a throwing handle
aborts the method before the removal check. -/
def handleSessionCleanupComplete (env : EnvT) (st : ServerState) (u : UserId)
    (sid : SessionId) : ServerState × List Event × Bool :=
  match mapGet st.activeUserSessions u with
  | none => (st, [], false)
  | some trackedInfo =>
    match trackedInfo.sessionHandlerCleanup with
    | some h =>
      if env h then (st, [.invokeCleanup h], true)
      else if trackedInfo.sessionId == sid then
        ({ st with activeUserSessions := mapRemove st.activeUserSessions u },
         [.invokeCleanup h, .removeRecord u], false)
      else (st, [.invokeCleanup h], false)
    | none =>
      if trackedInfo.sessionId == sid then
        ({ st with activeUserSessions := mapRemove st.activeUserSessions u },
         [.removeRecord u], false)
      else (st, [], false)

/-- The shutdown cleanup handler registered with `addCleanupHandler` in the
`MusicPlayerServer` constructor: for each tracked record, invoke its cleanup handle
inside `try`/`catch`, then `activeUserSessions.clear()`. -/
def shutdownCleanup (env : EnvT) (st : ServerState) : ServerState × List Event :=
  ({ st with activeUserSessions := [] },
   (st.activeUserSessions.map (fun p => cleanupEventsFor env p.2.sessionHandlerCleanup)).flatten
     ++ [.clearRegistry])

/-- `heading` of a Shazam search hit (`services/shazam-service.ts` reads
`hits[0].heading.title` and `hits[0].heading.subtitle`). -/
structure Heading where
  title : String
  subtitle : String
deriving DecidableEq, Repr

/-- One element of `song.tracks.hits`; `heading` may be absent in a malformed hit. -/
structure ShazamHit where
  heading : Option Heading
deriving DecidableEq, Repr

/-- The `tracks` object of a Shazam search result; `hits` may be absent. -/
structure ShazamTracks where
  hits : Option (List ShazamHit)
deriving DecidableEq, Repr

/-- A Shazam `search_music` result; `tracks` may be absent. -/
structure ShazamSearchResult where
  tracks : Option ShazamTracks
deriving DecidableEq, Repr

/-- The object returned by `ShazamService.findTrack`: either `{}` (no fields) or
`{trackName, artist}`. -/
structure FoundTrack where
  trackName : Option String
  artist : Option String
deriving DecidableEq, Repr

/-- `ShazamService.findTrack`, as a function of the search result shape.  A JavaScript
`TypeError` (member access on `undefined`) is an `Except.error`.  Note `if
(song.tracks.hits)` is truthy for an empty array, so the `hits = []` shape reaches
`hits[0].heading` where `hits[0]` is `undefined`. -/
def findTrack (song : ShazamSearchResult) : Except String FoundTrack :=
  match song.tracks with
  | none => .error "TypeError: cannot read hits of undefined"
  | some tracks =>
    match tracks.hits with
    | none => .ok ⟨none, none⟩
    | some hits =>
      match hits with
      | [] => .error "TypeError: cannot read heading of undefined"
      | hit :: _ =>
        match hit.heading with
        | none => .error "TypeError: cannot read title of undefined"
        | some heading => .ok ⟨some heading.title, some heading.subtitle⟩

/-- `SessionMode` lives in `handlers/session-handler.ts`, which is not among the
sources.  Modelled from the spec: `IDLE`, `AWAITING_DEVICE_SELECTION`,
`AWAITING_SAVE_CONFIRMATION`. -/
inductive SessionMode where
  | idle
  | awaitingDeviceSelection
  | awaitingSaveConfirmation
deriving DecidableEq, Repr

/-- `PlayerCommand` lives in `handlers/session-handler.ts`, which is not among the
sources.  Modelled from the spec: `PLAY`, `PAUSE`, `NEXT`, `PREVIOUS`, `SAVE_CURRENT`. -/
inductive PlayerCommand where
  | play
  | pause
  | next
  | previous
  | saveCurrent
deriving DecidableEq, Repr

/-- `PlaybackInfo` from `types/index.ts`. -/
structure PlaybackInfo where
  trackName : Option String
  artists : Option String
  albumName : Option String
  isPlaying : Option Bool
  trackId : Option String
deriving DecidableEq, Repr

/-- `DeviceInfo` from `types/index.ts` (`type` is renamed `deviceType`: `type` is a
keyword in Lean). -/
structure DeviceInfo where
  name : String
  deviceType : String
  id : String
deriving DecidableEq, Repr

/-- The payload of `SessionState.data` from `types/index.ts`. -/
structure SessionData where
  musicPlayer : MusicPlayerKind
  deviceInfo : List DeviceInfo
  shazamInfo : PlaybackInfo
deriving DecidableEq, Repr

/-- `SessionState` from `types/index.ts`.  `timeoutId : NodeJS.Timeout | null` becomes
an optional timer id. -/
structure SessionState where
  mode : SessionMode
  timeoutId : Option Nat
  data : Option SessionData
  pendingCommand : Option PlayerCommand
deriving DecidableEq, Repr

/-- Modelled from the spec: the pool of armed, not-yet-fired, not-yet-cancelled
`setTimeout` timers owned by one session (`session-handler.ts` is not among the
sources).  `live` is the list of outstanding timers; `nextTimerId` supplies fresh
timer identities. -/
structure TimerWorld where
  nextTimerId : Nat
  live : List Nat
deriving DecidableEq, Repr

/-- Modelled from the spec: clearing the session timer (`clearTimeout` on
`SessionState.timeoutId`, then nulling the handle). -/
def clearSessionTimer (w : TimerWorld) (st : SessionState) : TimerWorld × SessionState :=
  match st.timeoutId with
  | some t => ({ w with live := w.live.filter (fun x => x != t) }, { st with timeoutId := none })
  | none => (w, st)

/-- Modelled from the spec: arming the session timer — "arming a new timer always
disarms the prior one first". -/
def armSessionTimer (w : TimerWorld) (st : SessionState) : TimerWorld × SessionState :=
  let cleared := clearSessionTimer w st
  ({ nextTimerId := cleared.1.nextTimerId + 1,
     live := cleared.1.live ++ [cleared.1.nextTimerId] },
   { cleared.2 with timeoutId := some cleared.1.nextTimerId })

/-- Modelled from the spec: the events driving one session's state machine
(classified transcripts, capability outcomes, timer firings). -/
inductive SmInput where
  | commandOk (c : PlayerCommand)
  | commandNoDevice (c : PlayerCommand)
  | identifySuccess (t : PlaybackInfo)
  | identifyFailure
  | deviceChosen
  | unmatchedTranscript
  | saveYes
  | saveNo
  | timerExpiry (t : Nat)
deriving DecidableEq, Repr

/-- Modelled from the spec: the effect of timer `t` expiring.  A timer that is still
outstanding forces the session back to idle and discards mode-scoped context; a timer
already cancelled by `clearTimeout` (not in `live`) never fires, so it does nothing. -/
def timerExpiryResult (w : TimerWorld) (st : SessionState) (t : Nat) :
    TimerWorld × SessionState :=
  if t ∈ w.live then
    ({ w with live := w.live.filter (fun x => x != t) },
     { st with mode := .idle, timeoutId := none, pendingCommand := none, data := none })
  else (w, st)

/-- Modelled from the spec: the per-session transition function of
`handlers/session-handler.ts` (not among the sources), restricted to the mode/timer
discipline of spec section 4.2 — entering any new mode invalidates the previous
timer, the awaiting modes arm one, timer expiry forces the session back to idle, and
a timer only fires while it is still outstanding (`clearTimeout` prevents a cleared
timer from firing).  Payload writes to `data` are irrelevant to the timer discipline
and are not modelled. -/
def smStep (w : TimerWorld) (st : SessionState) (i : SmInput) : TimerWorld × SessionState :=
  match st.mode, i with
  | .idle, .commandNoDevice c =>
    let armed := armSessionTimer w st
    (armed.1, { armed.2 with mode := .awaitingDeviceSelection, pendingCommand := some c })
  | .idle, .identifySuccess _ =>
    let armed := armSessionTimer w st
    (armed.1, { armed.2 with mode := .awaitingSaveConfirmation })
  | .awaitingDeviceSelection, .deviceChosen =>
    let cleared := clearSessionTimer w st
    (cleared.1, { cleared.2 with mode := .idle, pendingCommand := none, data := none })
  | .awaitingSaveConfirmation, .saveYes =>
    let cleared := clearSessionTimer w st
    (cleared.1, { cleared.2 with mode := .idle, data := none })
  | .awaitingSaveConfirmation, .saveNo =>
    let cleared := clearSessionTimer w st
    (cleared.1, { cleared.2 with mode := .idle, data := none })
  | _, .timerExpiry t => timerExpiryResult w st t
  | _, _ => (w, st)

/-- Modelled from the spec: a fresh session starts in `IDLE` with no timer. -/
def smInit : TimerWorld × SessionState :=
  (⟨0, []⟩, ⟨.idle, none, none, none⟩)

/-- Run the session state machine over a list of inputs. -/
def smRun (inputs : List SmInput) : TimerWorld × SessionState :=
  inputs.foldl (fun p i => smStep p.1 p.2 i) smInit

/-- Modelled from the spec: the observable world of one session's listeners/timer as
seen by the cleanup handle returned by `setupSessionHandlers`
(`handlers/session-handler.ts` is not among the sources).  Counters record how many
listener invalidations, timer invalidations and registry-removal notifications have
been performed; `disposed` is the spec's already-disposed flag tracked per handle. -/
structure HandlerWorld where
  listenerInvalidations : Nat
  timerInvalidations : Nat
  removalNotifications : Nat
  disposed : Bool
deriving DecidableEq, Repr

/-- Modelled from the spec: invoking the cleanup handle.  A first invocation
invalidates the listeners and the timer and sends one registry-removal notification;
a disposed handle does nothing.  The function is total: no invocation raises an
error. -/
def invokeCleanupHandle (w : HandlerWorld) : HandlerWorld :=
  if w.disposed then w
  else
    { listenerInvalidations := w.listenerInvalidations + 1,
      timerInvalidations := w.timerInvalidations + 1,
      removalNotifications := w.removalNotifications + 1,
      disposed := true }

/-- C5: invoking a session cleanup handle twice produces the same observable effect as
invoking it once — the second invocation performs no additional listener/timer
invalidation, sends no duplicate registry-removal notification (all recorded in the
`HandlerWorld` counters, which the equality fixes), and, the function being total,
raises no error. -/
theorem invokeCleanupHandle_idempotent (w : HandlerWorld) :
    invokeCleanupHandle (invokeCleanupHandle w) = invokeCleanupHandle w := by
  by_cases h : w.disposed <;> simp [invokeCleanupHandle, h]

/-- C10 counterexample: when the search result carries `tracks.hits` as an *empty*
list, `findTrack` does not return normally — `if (song.tracks.hits)` is truthy for an
empty array, so `hits[0].heading` is evaluated with `hits[0] = undefined` and a
`TypeError` is thrown.  This refutes the claim that `findTrack` returns normally for
every shape and never performs an out-of-bounds access when `hits` is present. -/
theorem findTrack_empty_hits_throws :
    findTrack ⟨some ⟨some []⟩⟩
      = Except.error "TypeError: cannot read heading of undefined" := rfl

/-- C10 amended: `findTrack` returns the empty object when `tracks.hits` is absent and
the first hit's heading title/subtitle when at least one hit (with a heading) exists,
but when `tracks.hits` is present and empty it throws a `TypeError` instead of
returning normally. -/
theorem findTrack_shapes (tracks : ShazamTracks) :
    (tracks.hits = none → findTrack ⟨some tracks⟩ = Except.ok ⟨none, none⟩) ∧
    (tracks.hits = some [] → ∃ e, findTrack ⟨some tracks⟩ = Except.error e) ∧
    (∀ hit rest h, tracks.hits = some (hit :: rest) → hit.heading = some h →
      findTrack ⟨some tracks⟩ = Except.ok ⟨some h.title, some h.subtitle⟩) := by
  refine ⟨fun hnone => ?_, fun hempty => ?_, fun hit rest h hcons hhead => ?_⟩
  · simp [findTrack, hnone]
  · exact ⟨"TypeError: cannot read heading of undefined", by simp [findTrack, hempty]⟩
  · simp [findTrack, hcons, hhead]

/-- C10 amended, witness at a one-hit result. -/
theorem findTrack_shapes_witness :
    findTrack ⟨some ⟨some [⟨some ⟨"Song A", "Artist B"⟩⟩]⟩⟩
      = Except.ok ⟨some "Song A", some "Artist B"⟩ :=
  (findTrack_shapes ⟨some [⟨some ⟨"Song A", "Artist B"⟩⟩]⟩).2.2
    ⟨some ⟨"Song A", "Artist B"⟩⟩ [] ⟨"Song A", "Artist B"⟩ rfl rfl

/-- C9 counterexample: `sendUserSettings` writes through the alias
`const processedSettings: UserSettings = defaultSettings`, so processing one user's
settings changes the result later computed for a different user.  Concretely, after a
first session whose array sets `heads_up_display` to `true`, a second session whose
array omits the key gets `true` — while the same second session processed against
pristine defaults gets the configured default `false`. -/
theorem sendUserSettings_crosstalk :
    ((sendUserSettings
        ((sendUserSettings ⟨[], ⟨.spotify, true, false⟩⟩
          (some [⟨headsUpDisplayKey, JsVal.vbool true⟩])).2)
        (some [])).1).isHeadsUpDisplay = true ∧
    ((sendUserSettings ⟨[], ⟨.spotify, true, false⟩⟩ (some [])).1).isHeadsUpDisplay
      = false := by
  exact ⟨rfl, rfl⟩

/-- C9 amended: the settings computed for a later session are folded over the
*previous* session's processed settings, not over the static configured defaults —
`sendUserSettings` assigns into and returns the shared module-level `defaultSettings`
object, so processed values carry over; in particular a session with an empty settings
array receives exactly the previous session's processed settings. -/
theorem sendUserSettings_carries_over (st : ServerState) (arr1 arr2 : List SettingEntry) :
    (sendUserSettings ((sendUserSettings st (some arr1)).2) (some arr2)).1
      = arr2.foldl applySetting (arr1.foldl applySetting st.defaultSettings) ∧
    (sendUserSettings ((sendUserSettings st (some arr1)).2) (some [])).1
      = arr1.foldl applySetting st.defaultSettings :=
  ⟨rfl, rfl⟩

/-- C2 (code bug): a stop notification whose session identifier (`"s1"`) differs from
the one in the user's tracked record (`"s2"`) does leave the tracking entry in place,
but the source invokes `trackedInfo.sessionHandlerCleanup()` *before* the identity
check, so the tracked (new) session's cleanup handle 7 is invoked — the trace below is
`[invokeCleanup 7]`, not `[]` as the claim requires. -/
theorem handleSessionCleanupComplete_stale_invokes_cleanup :
    handleSessionCleanupComplete (fun _ => false)
      ⟨[("user", ⟨0, "s2", some 7⟩)], ⟨.spotify, true, false⟩⟩ "user" "s1"
      = (⟨[("user", ⟨0, "s2", some 7⟩)], ⟨.spotify, true, false⟩⟩,
         [Event.invokeCleanup 7], false) := rfl

/-- C7: delivering a value-change event for any of the three user-setting keys to the
callbacks registered by `setupUserSettings` runs exactly the full session rebuild
`reapplySessionSettingsAndHandlers` for that user — not a partial update of
individual handlers. -/
theorem fireValueChange_full_rebuild (u : UserId) (key : String) (env : EnvT)
    (st : ServerState) (fetched : Option (List SettingEntry)) (freshHid : Nat)
    (hkey : key = musicPlayerKey ∨ key = voiceCommandsKey ∨ key = headsUpDisplayKey) :
    fireValueChange u key env st fetched freshHid
      = reapplySessionSettingsAndHandlers env st u fetched freshHid := by
  rcases hkey with h | h | h <;> subst h <;> rfl

/-- C7 witness at the `music_player` key. -/
theorem fireValueChange_full_rebuild_witness :
    fireValueChange "u" musicPlayerKey (fun _ => false)
        ⟨[], ⟨.spotify, true, false⟩⟩ none 0
      = reapplySessionSettingsAndHandlers (fun _ => false)
          ⟨[], ⟨.spotify, true, false⟩⟩ "u" none 0 :=
  fireValueChange_full_rebuild "u" musicPlayerKey (fun _ => false)
    ⟨[], ⟨.spotify, true, false⟩⟩ none 0 (Or.inl rfl)

/-- C3: a cleanup-complete notification removes the user's tracking entry exactly when
the notified session identifier equals the one stored in the tracked record; on a
mismatch, or when no record is tracked, the registry keeps the entry unchanged.  The
hypothesis pins the tracked cleanup handle (if any) to the cleanup-handle contract of
the spec — it does not throw — since a throw would abort `onStop` before the removal
check (the invocation itself is the subject of C2). -/
theorem handleSessionCleanupComplete_removal_iff (env : EnvT) (st : ServerState)
    (u : UserId) (sid : SessionId)
    (hok : ∀ info h, mapGet st.activeUserSessions u = some info →
      info.sessionHandlerCleanup = some h → env h = false) :
    ((∃ info, mapGet st.activeUserSessions u = some info ∧ info.sessionId = sid) →
      (handleSessionCleanupComplete env st u sid).1.activeUserSessions
          = mapRemove st.activeUserSessions u ∧
      mapGet (handleSessionCleanupComplete env st u sid).1.activeUserSessions u = none) ∧
    ((¬∃ info, mapGet st.activeUserSessions u = some info ∧ info.sessionId = sid) →
      (handleSessionCleanupComplete env st u sid).1.activeUserSessions
          = st.activeUserSessions) := by
  cases hm : mapGet st.activeUserSessions u with
  | none =>
    constructor
    · rintro ⟨info, hinfo, -⟩
      exact absurd hinfo (by simp)
    · intro
      simp [handleSessionCleanupComplete, hm]
  | some info =>
    by_cases hs : info.sessionId = sid
    · have hstep : (handleSessionCleanupComplete env st u sid).1.activeUserSessions
          = mapRemove st.activeUserSessions u := by
        cases hc : info.sessionHandlerCleanup with
        | none => simp [handleSessionCleanupComplete, hm, hc, hs]
        | some h =>
          have henv : env h = false := hok info h hm hc
          simp [handleSessionCleanupComplete, hm, hc, hs, henv]
      constructor
      · intro
        exact ⟨hstep, by rw [hstep]; exact mapGet_mapRemove_self _ _⟩
      · intro hne
        exact absurd ⟨info, rfl, hs⟩ hne
    · constructor
      · rintro ⟨info', hinfo', hsid'⟩
        cases hinfo'
        exact absurd hsid' hs
      · intro
        cases hc : info.sessionHandlerCleanup with
        | none => simp [handleSessionCleanupComplete, hm, hc, hs]
        | some h =>
          have henv : env h = false := hok info h hm hc
          simp [handleSessionCleanupComplete, hm, hc, hs, henv]

/-- C3 witness: matching identifier at a concrete state — the entry is removed. -/
theorem handleSessionCleanupComplete_removal_iff_witness :
    (handleSessionCleanupComplete (fun _ => false)
        ⟨[("u", ⟨0, "s1", some 3⟩)], ⟨.spotify, true, false⟩⟩
        "u" "s1").1.activeUserSessions
      = mapRemove [("u", ⟨0, "s1", some 3⟩)] "u" ∧
    mapGet (handleSessionCleanupComplete (fun _ => false)
        ⟨[("u", ⟨0, "s1", some 3⟩)], ⟨.spotify, true, false⟩⟩
        "u" "s1").1.activeUserSessions "u" = none :=
  (handleSessionCleanupComplete_removal_iff (fun _ => false)
      ⟨[("u", ⟨0, "s1", some 3⟩)], ⟨.spotify, true, false⟩⟩ "u" "s1"
      (fun _ _ _ _ => rfl)).1 ⟨⟨0, "s1", some 3⟩, rfl, rfl⟩

/-- C6: the shutdown cleanup handler empties the registry and, for every tracked
record carrying a cleanup handle, invokes that handle; a handle that throws is caught
and logged (trace-visible) and neither stops the remaining users' cleanup nor the
final clear — the conclusion holds for every environment of throwing handles. -/
theorem shutdownCleanup_cleans_all (env : EnvT) (st : ServerState) :
    (shutdownCleanup env st).1.activeUserSessions = [] ∧
    ∀ p ∈ st.activeUserSessions, ∀ h, p.2.sessionHandlerCleanup = some h →
      Event.invokeCleanup h ∈ (shutdownCleanup env st).2 ∧
      (env h = true → Event.logCleanupError h ∈ (shutdownCleanup env st).2) := by
  constructor
  · rfl
  · intro p hp h hh
    have hmem : cleanupEventsFor env p.2.sessionHandlerCleanup ∈
        st.activeUserSessions.map (fun q => cleanupEventsFor env q.2.sessionHandlerCleanup) :=
      List.mem_map_of_mem _ hp
    constructor
    · show Event.invokeCleanup h ∈ (shutdownCleanup env st).2
      simp only [shutdownCleanup]
      apply List.mem_append_left
      rw [List.mem_flatten]
      refine ⟨_, hmem, ?_⟩
      rw [hh]
      cases henv : env h <;> simp [cleanupEventsFor, henv]
    · intro henv
      show Event.logCleanupError h ∈ (shutdownCleanup env st).2
      simp only [shutdownCleanup]
      apply List.mem_append_left
      rw [List.mem_flatten]
      refine ⟨_, hmem, ?_⟩
      rw [hh]
      simp [cleanupEventsFor, henv]

/-- C6 witness: two tracked users, the first user's handle throws; the registry still
ends empty, the second user's handle is still invoked, and the throw is logged. -/
theorem shutdownCleanup_cleans_all_witness :
    (shutdownCleanup (fun h => h == 1)
        ⟨[("a", ⟨0, "s1", some 1⟩), ("b", ⟨1, "s2", some 2⟩)],
         ⟨.spotify, true, false⟩⟩).1.activeUserSessions = [] ∧
    Event.invokeCleanup 2 ∈ (shutdownCleanup (fun h => h == 1)
        ⟨[("a", ⟨0, "s1", some 1⟩), ("b", ⟨1, "s2", some 2⟩)],
         ⟨.spotify, true, false⟩⟩).2 ∧
    Event.logCleanupError 1 ∈ (shutdownCleanup (fun h => h == 1)
        ⟨[("a", ⟨0, "s1", some 1⟩), ("b", ⟨1, "s2", some 2⟩)],
         ⟨.spotify, true, false⟩⟩).2 :=
  ⟨(shutdownCleanup_cleans_all (fun h => h == 1)
      ⟨[("a", ⟨0, "s1", some 1⟩), ("b", ⟨1, "s2", some 2⟩)], ⟨.spotify, true, false⟩⟩).1,
   ((shutdownCleanup_cleans_all (fun h => h == 1)
      ⟨[("a", ⟨0, "s1", some 1⟩), ("b", ⟨1, "s2", some 2⟩)], ⟨.spotify, true, false⟩⟩).2
      ("b", ⟨1, "s2", some 2⟩) (by simp) 2 rfl).1,
   ((shutdownCleanup_cleans_all (fun h => h == 1)
      ⟨[("a", ⟨0, "s1", some 1⟩), ("b", ⟨1, "s2", some 2⟩)], ⟨.spotify, true, false⟩⟩).2
      ("a", ⟨0, "s1", some 1⟩) (by simp) 1 rfl).2 rfl⟩

theorem sendUserSettings_preserves_sessions (st : ServerState)
    (f : Option (List SettingEntry)) :
    ((sendUserSettings st f).2).activeUserSessions = st.activeUserSessions := by
  cases f <;> rfl

/-- C4: with a tracked session, re-applying settings emits — in order — the existing
cleanup invocation (exactly when a handle is installed; nothing but that invocation
and its possible error log precedes), then the settings fetch, then the attachment of
handlers derived from the freshly fetched settings, then the storing of the new
cleanup handle, which afterwards is the only one in the tracking record; with no
tracked session the operation changes nothing.  The old handlers are therefore gone
before the new generation is attached. -/
theorem reapplySessionSettings_contract (env : EnvT) (st : ServerState) (u : UserId)
    (fetched : Option (List SettingEntry)) (freshHid : Nat) :
    (mapGet st.activeUserSessions u = none →
      reapplySessionSettingsAndHandlers env st u fetched freshHid = (st, [])) ∧
    (∀ info, mapGet st.activeUserSessions u = some info →
      ∃ ev0,
        (reapplySessionSettingsAndHandlers env st u fetched freshHid).2
          = ev0 ++ [Event.fetchSettings u,
                    Event.attachHandlers u (sendUserSettings st fetched).1,
                    Event.storeCleanup u freshHid] ∧
        (∀ h, info.sessionHandlerCleanup = some h → Event.invokeCleanup h ∈ ev0) ∧
        (info.sessionHandlerCleanup = none → ev0 = []) ∧
        (∀ e ∈ ev0, (∃ h, e = Event.invokeCleanup h) ∨ (∃ h, e = Event.logCleanupError h)) ∧
        mapGet (reapplySessionSettingsAndHandlers env st u fetched
            freshHid).1.activeUserSessions u
          = some ⟨info.session, info.sessionId, some freshHid⟩) := by
  constructor
  · intro hnone
    simp [reapplySessionSettingsAndHandlers, hnone]
  · intro info hsome
    refine ⟨cleanupEventsFor env info.sessionHandlerCleanup, ?_, ?_, ?_, ?_, ?_⟩
    · simp [reapplySessionSettingsAndHandlers, hsome]
    · intro h hh
      rw [hh]
      cases henv : env h <;> simp [cleanupEventsFor, henv]
    · intro hh
      rw [hh]
      rfl
    · intro e he
      cases hc : info.sessionHandlerCleanup with
      | none =>
        rw [hc] at he
        simp [cleanupEventsFor] at he
      | some h =>
        rw [hc] at he
        cases henv : env h <;> simp [cleanupEventsFor, henv] at he
        · exact Or.inl ⟨h, he⟩
        · rcases he with he | he
          · exact Or.inl ⟨h, he⟩
          · exact Or.inr ⟨h, he⟩
    · simp only [reapplySessionSettingsAndHandlers, hsome]
      exact mapGet_mapSet_self _ _ _

/-- C4 witness: a tracked record with installed handle 3 is rebuilt with fresh handle
9; the invocation of handle 3 precedes the fetch/attach/store tail. -/
theorem reapplySessionSettings_contract_witness :
    (∃ ev0,
      (reapplySessionSettingsAndHandlers (fun _ => false)
          ⟨[("u", ⟨0, "s1", some 3⟩)], ⟨.spotify, true, false⟩⟩ "u" none 9).2
        = ev0 ++ [Event.fetchSettings "u",
                  Event.attachHandlers "u"
                    (sendUserSettings
                      ⟨[("u", ⟨0, "s1", some 3⟩)], ⟨.spotify, true, false⟩⟩ none).1,
                  Event.storeCleanup "u" 9] ∧
      Event.invokeCleanup 3 ∈ ev0) ∧
    mapGet (reapplySessionSettingsAndHandlers (fun _ => false)
        ⟨[("u", ⟨0, "s1", some 3⟩)], ⟨.spotify, true, false⟩⟩
        "u" none 9).1.activeUserSessions "u"
      = some ⟨0, "s1", some 9⟩ := by
  obtain ⟨ev0, htr, hinv, -, -, hget⟩ :=
    (reapplySessionSettings_contract (fun _ => false)
      ⟨[("u", ⟨0, "s1", some 3⟩)], ⟨.spotify, true, false⟩⟩ "u" none 9).2
      ⟨0, "s1", some 3⟩ rfl
  exact ⟨⟨ev0, htr, hinv 3 rfl⟩, hget⟩

/-- C1: when a session-open event arrives for a user who already has a tracked
session, the old record's cleanup handle (when installed) is invoked strictly before
the new record is installed, and afterwards the registry tracks exactly one record
for that user — the new one (new transport handle, new session identifier, carrying
the fresh cleanup handle installed by the re-apply step). -/
theorem onSession_supersede (env : EnvT) (st : ServerState) (sess : Nat)
    (sid : SessionId) (u : UserId) (fetched : Option (List SettingEntry))
    (freshHid : Nat) (old : ActiveSessionInfo)
    (hold : mapGet st.activeUserSessions u = some old) :
    (∀ h, old.sessionHandlerCleanup = some h →
      ∃ pre post,
        (onSession env st sess sid u fetched freshHid).2
          = pre ++ Event.installRecord u sid :: post ∧
        Event.invokeCleanup h ∈ pre) ∧
    (onSession env st sess sid u fetched freshHid).1.activeUserSessions.filter
        (fun p => p.1 == u)
      = [(u, ⟨sess, sid, some freshHid⟩)] := by
  have hON : onSession env st sess sid u fetched freshHid
      = ((reapplySessionSettingsAndHandlers env
            ⟨mapSet (mapRemove st.activeUserSessions u) u ⟨sess, sid, none⟩,
             st.defaultSettings⟩ u fetched freshHid).1,
         (cleanupEventsFor env old.sessionHandlerCleanup ++ [Event.removeRecord u])
           ++ [Event.installRecord u sid]
           ++ (setupUserSettings u).map (fun p => Event.subscribeSetting p.1)
           ++ (reapplySessionSettingsAndHandlers env
                ⟨mapSet (mapRemove st.activeUserSessions u) u ⟨sess, sid, none⟩,
                 st.defaultSettings⟩ u fetched freshHid).2) := by
    simp only [onSession, hold]
  constructor
  · intro h hh
    refine ⟨cleanupEventsFor env old.sessionHandlerCleanup ++ [Event.removeRecord u],
            (setupUserSettings u).map (fun p => Event.subscribeSetting p.1)
              ++ (reapplySessionSettingsAndHandlers env
                   ⟨mapSet (mapRemove st.activeUserSessions u) u ⟨sess, sid, none⟩,
                    st.defaultSettings⟩ u fetched freshHid).2, ?_, ?_⟩
    · rw [hON]
      simp
    · apply List.mem_append_left
      rw [hh]
      cases henv : env h <;> simp [cleanupEventsFor, henv]
  · rw [hON]
    have hmap : (reapplySessionSettingsAndHandlers env
          ⟨mapSet (mapRemove st.activeUserSessions u) u ⟨sess, sid, none⟩,
           st.defaultSettings⟩ u fetched freshHid).1.activeUserSessions
        = mapSet (mapSet (mapRemove st.activeUserSessions u) u ⟨sess, sid, none⟩) u
            ⟨sess, sid, some freshHid⟩ := by
      simp only [reapplySessionSettingsAndHandlers, mapGet_mapSet_self]
      rw [sendUserSettings_preserves_sessions]
    rw [hmap]
    exact filter_mapSet _ _ _

/-- C1 witness: user `"u"` is tracked with session `"s1"` and handle 3; a session-open
for `"s2"` invokes handle 3 before installing the new record, and the registry then
holds exactly the new record with the fresh handle 9. -/
theorem onSession_supersede_witness :
    (∃ pre post,
      (onSession (fun _ => false)
          ⟨[("u", ⟨0, "s1", some 3⟩)], ⟨.spotify, true, false⟩⟩ 1 "s2" "u" none 9).2
        = pre ++ Event.installRecord "u" "s2" :: post ∧
      Event.invokeCleanup 3 ∈ pre) ∧
    (onSession (fun _ => false)
        ⟨[("u", ⟨0, "s1", some 3⟩)], ⟨.spotify, true, false⟩⟩
        1 "s2" "u" none 9).1.activeUserSessions.filter (fun p => p.1 == "u")
      = [("u", ⟨1, "s2", some 9⟩)] :=
  ⟨(onSession_supersede (fun _ => false)
      ⟨[("u", ⟨0, "s1", some 3⟩)], ⟨.spotify, true, false⟩⟩ 1 "s2" "u" none 9
      ⟨0, "s1", some 3⟩ rfl).1 3 rfl,
   (onSession_supersede (fun _ => false)
      ⟨[("u", ⟨0, "s1", some 3⟩)], ⟨.spotify, true, false⟩⟩ 1 "s2" "u" none 9
      ⟨0, "s1", some 3⟩ rfl).2⟩

/-- The single-timer discipline: at most one outstanding timer, and any outstanding
timer is the one the session currently holds in `timeoutId`. -/
def timerInv (w : TimerWorld) (st : SessionState) : Prop :=
  w.live.length ≤ 1 ∧ ∀ t ∈ w.live, st.timeoutId = some t

theorem timerInv_smInit : timerInv smInit.1 smInit.2 :=
  ⟨by simp [smInit], by simp [smInit]⟩

theorem clearSessionTimer_spec {w : TimerWorld} {st : SessionState}
    (hinv : timerInv w st) :
    (clearSessionTimer w st).1.live = [] ∧
    (clearSessionTimer w st).2.timeoutId = none ∧
    (clearSessionTimer w st).1.nextTimerId = w.nextTimerId := by
  obtain ⟨-, hall⟩ := hinv
  cases h : st.timeoutId with
  | none =>
    have hnil : w.live = [] := by
      cases hl : w.live with
      | nil => rfl
      | cons a l =>
        have ha := hall a (by rw [hl]; exact List.mem_cons_self a l)
        rw [h] at ha
        cases ha
    simp [clearSessionTimer, h, hnil]
  | some t =>
    have hfil : w.live.filter (fun x => x != t) = [] := by
      rw [List.filter_eq_nil_iff]
      intro x hx
      have hx' := hall x hx
      rw [h] at hx'
      cases hx'
      simp
    simp [clearSessionTimer, h, hfil]

theorem armSessionTimer_spec {w : TimerWorld} {st : SessionState}
    (hinv : timerInv w st) :
    (armSessionTimer w st).1.live = [w.nextTimerId] ∧
    (armSessionTimer w st).2.timeoutId = some w.nextTimerId := by
  obtain ⟨h1, h2, h3⟩ := clearSessionTimer_spec hinv
  constructor
  · show (clearSessionTimer w st).1.live ++ [(clearSessionTimer w st).1.nextTimerId]
        = [w.nextTimerId]
    rw [h1, h3]
    rfl
  · show some (clearSessionTimer w st).1.nextTimerId = some w.nextTimerId
    rw [h3]

theorem smStep_timerInv (w : TimerWorld) (st : SessionState) (i : SmInput)
    (hinv : timerInv w st) : timerInv (smStep w st i).1 (smStep w st i).2 := by
  obtain ⟨harml, harmt⟩ := armSessionTimer_spec hinv
  obtain ⟨hcll, hclt, -⟩ := clearSessionTimer_spec hinv
  have harm : timerInv (armSessionTimer w st).1 (armSessionTimer w st).2 := by
    refine ⟨by rw [harml]; simp, ?_⟩
    intro t ht
    rw [harml] at ht
    simp only [List.mem_singleton] at ht
    rw [harmt, ht]
  have hclear : timerInv (clearSessionTimer w st).1 (clearSessionTimer w st).2 := by
    refine ⟨by rw [hcll]; simp, ?_⟩
    intro t ht
    rw [hcll] at ht
    cases ht
  have hexpiry : ∀ t : Nat,
      timerInv (timerExpiryResult w st t).1 (timerExpiryResult w st t).2 := by
    intro t
    by_cases hc : t ∈ w.live
    · rw [timerExpiryResult, if_pos hc]
      refine ⟨le_trans (List.length_filter_le _ _) hinv.1, ?_⟩
      intro x hx
      obtain ⟨hxl, hxne⟩ := List.mem_filter.mp hx
      have h1 := hinv.2 x hxl
      have h2 := hinv.2 t hc
      rw [h1] at h2
      cases h2
      simp at hxne
    · rw [timerExpiryResult, if_neg hc]
      exact hinv
  cases hm : st.mode <;> cases i <;>
    simp only [smStep, hm] <;>
    first
    | exact hinv
    | exact hexpiry _
    | exact ⟨harm.1, fun t ht => harm.2 t ht⟩
    | exact ⟨hclear.1, fun t ht => hclear.2 t ht⟩

theorem smRun_foldl_inv (inputs : List SmInput) :
    ∀ p : TimerWorld × SessionState, timerInv p.1 p.2 →
      timerInv (inputs.foldl (fun q i => smStep q.1 q.2 i) p).1
        (inputs.foldl (fun q i => smStep q.1 q.2 i) p).2 := by
  induction inputs with
  | nil => exact fun p h => h
  | cons i rest ih =>
    intro p h
    exact ih (smStep p.1 p.2 i) (smStep_timerInv p.1 p.2 i h)

/-- C8: along every event sequence of one session, at most one timer is outstanding
at any instant, every outstanding timer is the currently armed one (`timeoutId` —
arming always disarms the prior timer first, and entering a new mode invalidates the
previous mode's timer), and the expiry of any timer other than the currently armed
one is a no-op: a timeout armed for an earlier mode can no longer fire after the mode
has changed. -/
theorem smRun_single_timer (inputs : List SmInput) :
    ((smRun inputs).1.live.length ≤ 1 ∧
      ∀ t ∈ (smRun inputs).1.live, (smRun inputs).2.timeoutId = some t) ∧
    (∀ t, (smRun inputs).2.timeoutId ≠ some t →
      smStep (smRun inputs).1 (smRun inputs).2 (SmInput.timerExpiry t)
        = ((smRun inputs).1, (smRun inputs).2)) := by
  have hinv : timerInv (smRun inputs).1 (smRun inputs).2 :=
    smRun_foldl_inv inputs smInit timerInv_smInit
  refine ⟨hinv, ?_⟩
  intro t ht
  have hnot : t ∉ (smRun inputs).1.live := fun hmem => ht (hinv.2 t hmem)
  cases hm : (smRun inputs).2.mode <;> simp [smStep, timerExpiryResult, hm, hnot]

/-- C8 witness: after a play command hits the no-device precondition, one timer
(id 0) is armed, and firing a foreign timer id (5) changes nothing. -/
theorem smRun_single_timer_witness :
    ((smRun [SmInput.commandNoDevice PlayerCommand.play]).1.live.length ≤ 1 ∧
      ∀ t ∈ (smRun [SmInput.commandNoDevice PlayerCommand.play]).1.live,
        (smRun [SmInput.commandNoDevice PlayerCommand.play]).2.timeoutId = some t) ∧
    smStep (smRun [SmInput.commandNoDevice PlayerCommand.play]).1
        (smRun [SmInput.commandNoDevice PlayerCommand.play]).2 (SmInput.timerExpiry 5)
      = ((smRun [SmInput.commandNoDevice PlayerCommand.play]).1,
         (smRun [SmInput.commandNoDevice PlayerCommand.play]).2) :=
  ⟨(smRun_single_timer [SmInput.commandNoDevice PlayerCommand.play]).1,
   (smRun_single_timer [SmInput.commandNoDevice PlayerCommand.play]).2 5 (by decide)⟩

end MusicPlayer
